import Mathlib

/-!
Shallow embedding of the dns-rewrites-sync reconciliation core
(`docker/dns_sync/servers/base.py`, `docker/dns_sync/sync.py`,
`docker/dns_sync/db.py`) and proofs about it.

Record sets are Python `set[str]` values; we embed one as a `List String`
understood as an enumeration of the set (Python iteration order is
arbitrary; every statement proved below is order-independent).
Vendor adapters are abstract (`DNSServer` is an ABC): an adapter's
`add_record`/`delete_record` behaviour is modelled as an oracle giving,
per record, the call's outcome — a returned boolean or a raised exception.
-/

namespace DnsSync

/-- The two record types the reconciliation loop diffs
(`for record_type in ["A", "CNAME"]`, sync.py line 132). -/
inductive RType where
  | A
  | CNAME
deriving DecidableEq, Repr

/-- A Python `set[str]` of canonical record strings, as an enumeration. -/
abbrev RecordSet := List String

/-- A records dict `{"A": set, "CNAME": set}` as returned by
`get_records` (base.py line 93). Missing keys read as the empty set via
`.get(record_type, set())`, which `get` mirrors. -/
structure RecordMap where
  a : RecordSet
  cname : RecordSet
deriving DecidableEq, Repr

def RecordMap.get (m : RecordMap) : RType → RecordSet
  | .A => m.a
  | .CNAME => m.cname

/-- Python set difference `s - t` (elements of `s` not in `t`),
as used for `to_add`/`to_remove` (sync.py lines 135-136). -/
def setDiff (s t : RecordSet) : RecordSet :=
  s.filter (fun r => decide (r ∉ t))

/-- Outcome of one `add_record`/`delete_record` adapter call: the returned
boolean, or a raised exception carrying `str(e)`. -/
inductive CallResult where
  | ok (b : Bool)
  | exn (msg : String)
deriving DecidableEq, Repr

/-- The stats dict built by `_apply_diff` (sync.py line 129). -/
structure Stats where
  added : Nat
  removed : Nat
  conflicts : Nat
  a_records : Nat
  cname_records : Nat
deriving DecidableEq, Repr

def emptyStats : Stats := ⟨0, 0, 0, 0, 0⟩

/-- One iteration of the `to_add` loop of `_apply_diff`
(sync.py lines 148-168): a `True` return bumps `added`, a `False` return
or a raised exception bumps `conflicts`. -/
def processAdd (s : Stats) (res : CallResult) : Stats :=
  match res with
  | .ok true => { s with added := s.added + 1 }
  | .ok false => { s with conflicts := s.conflicts + 1 }
  | .exn _ => { s with conflicts := s.conflicts + 1 }

/-- One iteration of the `to_remove` loop of `_apply_diff`
(sync.py lines 170-188): a `True` return bumps `removed`, a raised
exception bumps `conflicts`; a `False` return is only logged
(lines 179-185) and changes no counter. -/
def processRemove (s : Stats) (res : CallResult) : Stats :=
  match res with
  | .ok true => { s with removed := s.removed + 1 }
  | .ok false => s
  | .exn _ => { s with conflicts := s.conflicts + 1 }

/-- The body of `_apply_diff` for one record type: compute
`to_add`/`to_remove`, run the add loop then the remove loop.
`add`/`del` give each call's outcome; the loop parses each `record_str`
into a `DNSRecord` and hands it to the adapter, so per string the
composite outcome is a fixed value. -/
def applyDiffType (add del : String → CallResult) (source target : RecordSet)
    (s : Stats) : Stats :=
  let to_add := setDiff source target
  let to_remove := setDiff target source
  let s1 := to_add.foldl (fun st r => processAdd st (add r)) s
  to_remove.foldl (fun st r => processRemove st (del r)) s1

/-- Embedding of `_apply_diff(source_records, target_server)` (sync.py lines 124-193):
`target` is the adapter's live snapshot from `get_records`; the two types
are processed in order A then CNAME, and the post-sync counts
`a_records`/`cname_records` are the sizes of the source sets
(lines 191-192). -/
def applyDiff (source target : RecordMap) (add del : RType → String → CallResult) :
    Stats :=
  let s1 := applyDiffType (add .A) (del .A) (source.get .A) (target.get .A) emptyStats
  let s2 := applyDiffType (add .CNAME) (del .CNAME) (source.get .CNAME)
    (target.get .CNAME) s1
  { s2 with
    a_records := (source.get .A).length
    cname_records := (source.get .CNAME).length }

/-- The remote record set of one type after `_apply_diff` ran: each
`to_add` record whose `add_record` call returned `True` is present, and
each `to_remove` record whose `delete_record` call returned `True` is
gone. -/
def finalTargetType (add del : String → CallResult) (source target : RecordSet) :
    RecordSet :=
  let to_add := setDiff source target
  let to_remove := setDiff target source
  let afterAdds := target ++ to_add.filter (fun r => decide (add r = .ok true))
  afterAdds.filter (fun r => !(decide (r ∈ to_remove) && decide (del r = .ok true)))

/-- Embedding of `DNSRecord` (base.py lines 12-18): universal record format. -/
structure DNSRecord where
  domain : String
  value : String
  rtype : String
  ttl : Option Nat := none
deriving DecidableEq, Repr

/-- Split a character list at the FIRST occurrence of `sep`, like Python
`s.split(sep, 1)` when `sep` occurs in `s`; `none` when it does not
(where Python's tuple unpacking would raise `ValueError`). -/
def splitOnce (sep : List Char) : List Char → Option (List Char × List Char)
  | [] => if sep = [] then some ([], []) else none
  | c :: rest =>
    if sep.isPrefixOf (c :: rest) then some ([], (c :: rest).drop sep.length)
    else
      match splitOnce sep rest with
      | some (pre, post) => some (c :: pre, post)
      | none => none

/-- Embedding of `DNSRecord.to_a_format` (base.py lines 20-21): `f"{value} {domain}"`. -/
def DNSRecord.to_a_format (r : DNSRecord) : String :=
  r.value ++ " " ++ r.domain

/-- Embedding of `DNSRecord.to_cname_format` (base.py lines 23-24):
`f"{domain} -> {value}"`. -/
def DNSRecord.to_cname_format (r : DNSRecord) : String :=
  r.domain ++ " -> " ++ r.value

/-- Embedding of `DNSRecord.from_a_string` (base.py lines 26-29):
`ip, domain = record_str.split(' ', 1)`. `none` models the `ValueError`
raised when the string has no space. -/
def DNSRecord.from_a_string (s : String) : Option DNSRecord :=
  match splitOnce [' '] s.data with
  | some (ip, domain) =>
    some { domain := ⟨domain⟩, value := ⟨ip⟩, rtype := "A" }
  | none => none

/-- Embedding of `DNSRecord.from_cname_string` (base.py lines 31-34):
`domain, target = record_str.split(' -> ', 1)`. -/
def DNSRecord.from_cname_string (s : String) : Option DNSRecord :=
  match splitOnce " -> ".data s.data with
  | some (domain, target) =>
    some { domain := ⟨domain⟩, value := ⟨target⟩, rtype := "CNAME" }
  | none => none

/-- Outcome of one HTTP attempt inside `_request_with_retry`: the request
plus `raise_for_status` succeeds, or raises a `RequestException`. -/
inductive ReqOutcome where
  | success
  | failure (msg : String)
deriving DecidableEq, Repr

/-- Result of `_request_with_retry`: a response is returned, the last
exception is re-raised, or (only when `retries = 0`) the loop body never
runs and Python falls through returning `None`. -/
inductive RetryResult where
  | response
  | exnRaised (msg : String)
  | noneReturned
deriving DecidableEq, Repr

/-- The default `retries` count, `config.get('retries', 3)`
(base.py line 46). -/
def defaultRetries : Nat := 3

/-- The loop body of `_request_with_retry` (base.py lines 75-85) over the
remaining attempt numbers. `f n` is the outcome of attempt `n` (0-based).
On failure of the final attempt (`attempt == self.retries - 1`) the
exception is re-raised; otherwise the loop sleeps `(attempt + 1) * 2`
seconds and continues. Returns the result, the list of sleeps performed,
and the number of attempts made. -/
def requestRetryLoop (retries : Nat) (f : Nat → ReqOutcome) :
    List Nat → RetryResult × List Nat × Nat
  | [] => (.noneReturned, [], 0)
  | attempt :: rest =>
    match f attempt with
    | .success => (.response, [], 1)
    | .failure e =>
      if attempt = retries - 1 then (.exnRaised e, [], 1)
      else
        let r := requestRetryLoop retries f rest
        (r.1, (attempt + 1) * 2 :: r.2.1, r.2.2 + 1)

/-- Embedding of `_request_with_retry` (base.py lines 73-85):
`for attempt in range(self.retries)`. -/
def requestWithRetry (retries : Nat) (f : Nat → ReqOutcome) :
    RetryResult × List Nat × Nat :=
  requestRetryLoop retries f (List.range retries)

/-- The stats dict of `DNSServer.sync_records` (base.py line 121):
only `added`/`removed`/`conflicts`. -/
structure Stats3 where
  added : Nat
  removed : Nat
  conflicts : Nat
deriving DecidableEq, Repr

/-- A mutating adapter call issued against the target server. -/
inductive MutCall where
  | addCall (t : RType) (r : String)
  | delCall (t : RType) (r : String)
deriving DecidableEq, Repr

/-- Add loop of `sync_records` (base.py lines 143-150): a `True` return
bumps `added`, a raised exception bumps `conflicts`, a `False` return
changes no counter. -/
def syncProcessAdd (s : Stats3) (res : CallResult) : Stats3 :=
  match res with
  | .ok true => { s with added := s.added + 1 }
  | .ok false => s
  | .exn _ => { s with conflicts := s.conflicts + 1 }

/-- Remove loop of `sync_records` (base.py lines 153-160): same shape as
the add loop, bumping `removed` on `True`. -/
def syncProcessRemove (s : Stats3) (res : CallResult) : Stats3 :=
  match res with
  | .ok true => { s with removed := s.removed + 1 }
  | .ok false => s
  | .exn _ => { s with conflicts := s.conflicts + 1 }

/-- One record type of `DNSServer.sync_records` (base.py lines 127-160),
also recording the mutating adapter calls issued. In dry-run the set
sizes are added to the stats and the loops are skipped (lines 137-140). -/
def syncRecordsType (t : RType) (add del : String → CallResult)
    (source target : RecordSet) (dryRun : Bool) (s : Stats3) :
    Stats3 × List MutCall :=
  let to_add := setDiff source target
  let to_remove := setDiff target source
  if dryRun then
    ({ s with added := s.added + to_add.length,
              removed := s.removed + to_remove.length }, [])
  else
    let s1 := to_add.foldl (fun st r => syncProcessAdd st (add r)) s
    let s2 := to_remove.foldl (fun st r => syncProcessRemove st (del r)) s1
    (s2, to_add.map (MutCall.addCall t) ++ to_remove.map (MutCall.delCall t))

/-- Embedding of `DNSServer.sync_records(target_server, dry_run)` (base.py
lines 119-162), with the trace of mutating calls made explicit. -/
def syncRecords (source target : RecordMap) (add del : RType → String → CallResult)
    (dryRun : Bool) : Stats3 × List MutCall :=
  let (s1, m1) := syncRecordsType .A (add .A) (del .A) (source.get .A)
    (target.get .A) dryRun ⟨0, 0, 0⟩
  let (s2, m2) := syncRecordsType .CNAME (add .CNAME) (del .CNAME)
    (source.get .CNAME) (target.get .CNAME) dryRun s1
  (s2, m1 ++ m2)

/-- The `authoritative_records` rows written by `save_hub_records`
(db.py lines 90-96): one `(record_type, record_str)` row per element of
each type's set (timestamps and the surrogate id are omitted; the
dbms-level `hub_name` filter is applied by taking this hub's rows). -/
def hubRowsOf (m : RecordMap) : List (RType × String) :=
  m.a.map (fun s => (RType.A, s)) ++ m.cname.map (fun s => (RType.CNAME, s))

/-- The dict built by `get_cached_hub_records` (db.py lines 115-118) via
`records.setdefault(record_type, set()).add(record_str)`: a key is
present exactly when some row of that type exists. -/
structure PyRecordsDict where
  a : Option RecordSet
  cname : Option RecordSet
deriving DecidableEq, Repr

/-- How `_apply_diff` consumes a cached dict: missing keys read as the
empty set (`records.get(record_type, set())`, sync.py lines 133-134). -/
def PyRecordsDict.toMap (d : PyRecordsDict) : RecordMap :=
  ⟨d.a.getD [], d.cname.getD []⟩

/-- Embedding of `get_cached_hub_records` (db.py lines 105-118): `None` when no rows
exist for the hub, otherwise the rows regrouped by type. -/
def getCachedHubRecords (rows : List (RType × String)) : Option PyRecordsDict :=
  if rows.isEmpty then none
  else
    let aRows := rows.filterMap (fun p => if p.1 = RType.A then some p.2 else none)
    let cRows := rows.filterMap (fun p => if p.1 = RType.CNAME then some p.2 else none)
    some ⟨if aRows.isEmpty then none else some aRows,
          if cRows.isEmpty then none else some cRows⟩

/-- Python truthiness of the `error` argument of `record_sync`
(`"error" if error else "success"`, db.py line 196): `None` and the
empty string are falsy. -/
def pyTruthy : Option String → Bool
  | none => false
  | some s => s ≠ ""

/-- One `sync_runs` row as inserted by `record_sync`
(db.py lines 186-213), timestamps omitted. -/
structure HistoryRow where
  server_name : String
  server_type : String
  role : String
  added : Nat
  removed : Nat
  conflicts : Nat
  a_records : Nat
  cname_records : Nat
  status : String
  error : Option String
deriving DecidableEq, Repr

/-- The row `record_sync(db_path, name, stype, "spoke", stats, error)`
inserts. -/
def mkRow (name stype : String) (s : Stats) (err : Option String) : HistoryRow :=
  { server_name := name
    server_type := stype
    role := "spoke"
    added := s.added
    removed := s.removed
    conflicts := s.conflicts
    a_records := s.a_records
    cname_records := s.cname_records
    status := if pyTruthy err then "error" else "success"
    error := err }

/-- A notification emitted through `notifications.py` (whose senders
swallow their own transport errors). -/
inductive Notif where
  | syncFailed (name stype msg : String)
  | hubUnreachable (name stype msg : String)
deriving DecidableEq, Repr

/-- The spoke configuration fields the orchestrator reads:
`spoke_cfg["name"]`, `spoke_cfg["type"]`,
`spoke_cfg.get("enabled", True)`. -/
structure SpokeCfg where
  name : String
  stype : String
  enabled : Bool
deriving DecidableEq, Repr

/-- Outcome of the adapter interaction of one spoke sync
(`create_server` + `connect` + `_apply_diff` against the live records):
either some call raised out of `_apply_diff` (e.g. `connect` or
`get_records`), or `_apply_diff` completed with a stats dict. `muts`
lists the mutating adapter calls that were issued. -/
inductive SpokeRun where
  | raised (msg : String) (muts : List MutCall)
  | complete (stats : Stats) (muts : List MutCall)
deriving DecidableEq, Repr

/-- Behaviour of one spoke's adapter and of the db calls made for it.
Each `...Exn` field is `some msg` when that db call raises. -/
structure SpokeBehavior where
  adapter : SpokeRun
  saveSpokeExn : Option String
  recordSyncSuccessExn : Option String
  recordSyncErrorExn : Option String
deriving DecidableEq, Repr

/-- Effects of processing one spoke inside the per-spoke `try/except` of
`sync_all_enabled_spokes` (sync.py lines 63-80). `res` is the entry put
into `results`; `uncaught` is an exception escaping the handler. -/
structure SpokeStep where
  res : Option (String × Stats)
  hist : List HistoryRow
  saves : List (String × RecordMap)
  notifs : List Notif
  muts : List MutCall
  uncaught : Option String
deriving DecidableEq, Repr

/-- The `except` handler (sync.py lines 72-77): `record_sync` with empty
stats and `error=str(e)`, then `notify_sync_failed`, then
`results[name] = empty`. A raise from this `record_sync` call escapes
the handler. -/
def errorStep (cfg : SpokeCfg) (b : SpokeBehavior) (muts : List MutCall)
    (saves : List (String × RecordMap)) (err : String) : SpokeStep :=
  match b.recordSyncErrorExn with
  | some e2 => ⟨none, [], saves, [], muts, some e2⟩
  | none =>
    ⟨some (cfg.name, emptyStats), [mkRow cfg.name cfg.stype emptyStats (some err)],
      saves, [.syncFailed cfg.name cfg.stype err], muts, none⟩

/-- The `try` body for one spoke with a hub cache in hand (sync.py
lines 63-80): connect, `_apply_diff`, `save_spoke_records(hub_records)`,
`record_sync(stats)`; any raise falls into the `except` handler. -/
def runSpokeBody (hub : RecordMap) (cfg : SpokeCfg) (b : SpokeBehavior) : SpokeStep :=
  match b.adapter with
  | .raised msg muts => errorStep cfg b muts [] msg
  | .complete stats muts =>
    match b.saveSpokeExn with
    | some e => errorStep cfg b muts [] e
    | none =>
      match b.recordSyncSuccessExn with
      | some e => errorStep cfg b muts [(cfg.name, hub)] e
      | none =>
        ⟨some (cfg.name, stats), [mkRow cfg.name cfg.stype stats none],
          [(cfg.name, hub)], [], muts, none⟩

/-- The message recorded when no authoritative cache exists
(sync.py line 58). -/
def cacheUnavailableMsg : String :=
  "No authoritative cache available — skipping spoke sync"

/-- Aggregate effects of `sync_all_enabled_spokes`. `results` carries the
returned `{spoke_name: stats}` entries in iteration order; `uncaught` is
an exception escaping the whole loop. -/
structure SyncOutcome where
  results : List (String × Stats)
  history : List HistoryRow
  spokeSaves : List (String × RecordMap)
  notifications : List Notif
  mutations : List MutCall
  uncaught : Option String
deriving DecidableEq, Repr

/-- Embedding of `sync_all_enabled_spokes` (sync.py lines 40-82). `hubCache` is what
`db.get_cached_hub_records` returned for the hub (line 46). Disabled
spokes are skipped; with no cache each spoke gets an error history row
and no adapter is touched; otherwise the spoke body runs under the
per-spoke handler. An uncaught exception aborts the remaining spokes. -/
def syncAllEnabledSpokes (hubCache : Option RecordMap) :
    List (SpokeCfg × SpokeBehavior) → SyncOutcome
  | [] => ⟨[], [], [], [], [], none⟩
  | (cfg, b) :: rest =>
    if cfg.enabled = false then syncAllEnabledSpokes hubCache rest
    else
      let step : SpokeStep :=
        match hubCache with
        | none =>
          match b.recordSyncErrorExn with
          | some e2 => ⟨none, [], [], [], [], some e2⟩
          | none =>
            ⟨some (cfg.name, emptyStats),
              [mkRow cfg.name cfg.stype emptyStats (some cacheUnavailableMsg)],
              [], [], [], none⟩
        | some hub => runSpokeBody hub cfg b
      match step.uncaught with
      | some e => ⟨step.res.toList, step.hist, step.saves, step.notifs, step.muts, some e⟩
      | none =>
        let out := syncAllEnabledSpokes hubCache rest
        ⟨step.res.toList ++ out.results, step.hist ++ out.history,
          step.saves ++ out.spokeSaves, step.notifs ++ out.notifications,
          step.muts ++ out.mutations, out.uncaught⟩

/-- Behaviour of the hub adapter and of `save_hub_records` during
`refresh_hub_cache`: `fetch` is the composite
`create_server` + `connect` + `get_records`. -/
structure HubBehavior where
  fetch : Except String RecordMap
  saveHubExn : Option String
deriving Repr

/-- Effects of `refresh_hub_cache`. -/
structure RefreshOutcome where
  result : Option RecordMap
  hubSaves : List (String × RecordMap)
  notifications : List Notif
deriving DecidableEq, Repr

/-- Embedding of `refresh_hub_cache` (sync.py lines 12-37): on success persist and
return the fresh records; on any raise notify hub-unreachable and return
whatever `db.get_cached_hub_records` holds (`cached`), which is `None`
when no cache exists. A raise from `save_hub_records` lands in the same
handler, its transaction uncommitted. -/
def refreshHubCache (hubName hubType : String) (b : HubBehavior)
    (cached : Option RecordMap) : RefreshOutcome :=
  match b.fetch with
  | .ok recs =>
    match b.saveHubExn with
    | none => ⟨some recs, [(hubName, recs)], []⟩
    | some e => ⟨cached, [], [.hubUnreachable hubName hubType e]⟩
  | .error e => ⟨cached, [], [.hubUnreachable hubName hubType e]⟩

/-- The message recorded by `perform_sync` when the hub is unreachable
and no cache exists (sync.py line 100). -/
def hubUnavailableMsg : String := "Hub unreachable and no cached records"

/-- Effects of `perform_sync`; `result` is the returned stats dict,
`none` when an exception escaped. -/
structure PerformOutcome where
  result : Option Stats
  history : List HistoryRow
  spokeSaves : List (String × RecordMap)
  hubSaves : List (String × RecordMap)
  notifications : List Notif
  mutations : List MutCall
  uncaught : Option String
deriving DecidableEq, Repr

/-- Embedding of `perform_sync` (sync.py lines 85-121): skip disabled spokes, always
refresh the hub cache first, record an error row when no records are
available, otherwise run the same spoke body as the batch loop. -/
def performSync (hubName hubType : String) (hb : HubBehavior)
    (cached : Option RecordMap) (cfg : SpokeCfg) (b : SpokeBehavior) :
    PerformOutcome :=
  if cfg.enabled = false then ⟨some emptyStats, [], [], [], [], [], none⟩
  else
    let rh := refreshHubCache hubName hubType hb cached
    match rh.result with
    | none =>
      match b.recordSyncErrorExn with
      | some e2 => ⟨none, [], [], rh.hubSaves, rh.notifications, [], some e2⟩
      | none =>
        ⟨some emptyStats,
          [mkRow cfg.name cfg.stype emptyStats (some hubUnavailableMsg)],
          [], rh.hubSaves, rh.notifications, [], none⟩
    | some hub =>
      let step := runSpokeBody hub cfg b
      ⟨step.res.map Prod.snd, step.hist, step.saves, rh.hubSaves,
        rh.notifications ++ step.notifs, step.muts, step.uncaught⟩

/-- Number of records in `l` whose adapter call returned `True`. -/
def cntOk (f : String → CallResult) (l : RecordSet) : Nat :=
  (l.filter (fun r => decide (f r = .ok true))).length

/-- Number of records in `l` whose adapter call returned `False` or
raised. -/
def cntNotOk (f : String → CallResult) (l : RecordSet) : Nat :=
  (l.filter (fun r => decide (¬ f r = .ok true))).length

/-- Number of records in `l` whose adapter call raised. -/
def cntExn (f : String → CallResult) (l : RecordSet) : Nat :=
  (l.filter (fun r => match f r with | .exn _ => true | _ => false)).length

theorem foldl_processAdd (f : String → CallResult) (l : RecordSet) (s : Stats) :
    l.foldl (fun st r => processAdd st (f r)) s =
      { s with added := s.added + cntOk f l,
               conflicts := s.conflicts + cntNotOk f l } := by
  induction l generalizing s with
  | nil => simp [cntOk, cntNotOk]
  | cons r t ih =>
    simp only [List.foldl_cons, ih, cntOk, cntNotOk, List.filter_cons]
    rcases h : f r with b | m
    · cases b <;> simp [processAdd, h, Stats.mk.injEq] <;> omega
    · simp [processAdd, h, Stats.mk.injEq]; omega

theorem foldl_processRemove (f : String → CallResult) (l : RecordSet) (s : Stats) :
    l.foldl (fun st r => processRemove st (f r)) s =
      { s with removed := s.removed + cntOk f l,
               conflicts := s.conflicts + cntExn f l } := by
  induction l generalizing s with
  | nil => simp [cntOk, cntExn]
  | cons r t ih =>
    simp only [List.foldl_cons, ih, cntOk, cntExn, List.filter_cons]
    rcases h : f r with b | m
    · cases b <;> simp [processRemove, h, Stats.mk.injEq] <;> omega
    · simp [processRemove, h, Stats.mk.injEq]; omega

theorem foldl_syncAdd (f : String → CallResult) (l : RecordSet) (s : Stats3) :
    l.foldl (fun st r => syncProcessAdd st (f r)) s =
      { s with added := s.added + cntOk f l,
               conflicts := s.conflicts + cntExn f l } := by
  induction l generalizing s with
  | nil => simp [cntOk, cntExn]
  | cons r t ih =>
    simp only [List.foldl_cons, ih, cntOk, cntExn, List.filter_cons]
    rcases h : f r with b | m
    · cases b <;> simp [syncProcessAdd, h, Stats3.mk.injEq] <;> omega
    · simp [syncProcessAdd, h, Stats3.mk.injEq]; omega

theorem foldl_syncRemove (f : String → CallResult) (l : RecordSet) (s : Stats3) :
    l.foldl (fun st r => syncProcessRemove st (f r)) s =
      { s with removed := s.removed + cntOk f l,
               conflicts := s.conflicts + cntExn f l } := by
  induction l generalizing s with
  | nil => simp [cntOk, cntExn]
  | cons r t ih =>
    simp only [List.foldl_cons, ih, cntOk, cntExn, List.filter_cons]
    rcases h : f r with b | m
    · cases b <;> simp [syncProcessRemove, h, Stats3.mk.injEq] <;> omega
    · simp [syncProcessRemove, h, Stats3.mk.injEq]; omega

/-- Closed form of the stats computed by `_apply_diff`. -/
theorem applyDiff_eq (source target : RecordMap) (add del : RType → String → CallResult) :
    applyDiff source target add del =
      { added := cntOk (add .A) (setDiff (source.get .A) (target.get .A))
                  + cntOk (add .CNAME) (setDiff (source.get .CNAME) (target.get .CNAME)),
        removed := cntOk (del .A) (setDiff (target.get .A) (source.get .A))
                  + cntOk (del .CNAME) (setDiff (target.get .CNAME) (source.get .CNAME)),
        conflicts := cntNotOk (add .A) (setDiff (source.get .A) (target.get .A))
                  + cntExn (del .A) (setDiff (target.get .A) (source.get .A))
                  + cntNotOk (add .CNAME) (setDiff (source.get .CNAME) (target.get .CNAME))
                  + cntExn (del .CNAME) (setDiff (target.get .CNAME) (source.get .CNAME)),
        a_records := (source.get .A).length,
        cname_records := (source.get .CNAME).length } := by
  simp only [applyDiff, applyDiffType, foldl_processAdd, foldl_processRemove, emptyStats]
  simp [Stats.mk.injEq]

/-- Closed form of non-dry-run `sync_records`: stats and mutation trace. -/
theorem syncRecords_eq (source target : RecordMap) (add del : RType → String → CallResult) :
    syncRecords source target add del false =
      (⟨cntOk (add .A) (setDiff (source.get .A) (target.get .A))
          + cntOk (add .CNAME) (setDiff (source.get .CNAME) (target.get .CNAME)),
        cntOk (del .A) (setDiff (target.get .A) (source.get .A))
          + cntOk (del .CNAME) (setDiff (target.get .CNAME) (source.get .CNAME)),
        cntExn (add .A) (setDiff (source.get .A) (target.get .A))
          + cntExn (del .A) (setDiff (target.get .A) (source.get .A))
          + cntExn (add .CNAME) (setDiff (source.get .CNAME) (target.get .CNAME))
          + cntExn (del .CNAME) (setDiff (target.get .CNAME) (source.get .CNAME))⟩,
       (setDiff (source.get .A) (target.get .A)).map (MutCall.addCall .A)
         ++ (setDiff (target.get .A) (source.get .A)).map (MutCall.delCall .A)
         ++ ((setDiff (source.get .CNAME) (target.get .CNAME)).map (MutCall.addCall .CNAME)
         ++ (setDiff (target.get .CNAME) (source.get .CNAME)).map (MutCall.delCall .CNAME))) := by
  simp only [syncRecords, syncRecordsType, if_neg Bool.false_ne_true, foldl_syncAdd,
    foldl_syncRemove]
  simp [Stats3.mk.injEq]

theorem mem_setDiff {r : String} {s t : RecordSet} :
    r ∈ setDiff s t ↔ r ∈ s ∧ r ∉ t := by
  simp [setDiff]

theorem cntOk_all {f : String → CallResult} {l : RecordSet}
    (h : ∀ r ∈ l, f r = .ok true) : cntOk f l = l.length := by
  unfold cntOk
  rw [List.filter_eq_self.mpr]
  intro a ha
  simp [h a ha]

theorem cntNotOk_all {f : String → CallResult} {l : RecordSet}
    (h : ∀ r ∈ l, f r = .ok true) : cntNotOk f l = 0 := by
  have he : l.filter (fun r => decide (¬ f r = .ok true)) = [] :=
    List.filter_eq_nil_iff.mpr (fun a ha => by simp [h a ha])
  unfold cntNotOk
  rw [he]
  rfl

theorem cntExn_all {f : String → CallResult} {l : RecordSet}
    (h : ∀ r ∈ l, f r = .ok true) : cntExn f l = 0 := by
  have he : l.filter (fun r => match f r with | .exn _ => true | _ => false) = [] :=
    List.filter_eq_nil_iff.mpr (fun a ha => by simp [h a ha])
  unfold cntExn
  rw [he]
  rfl

theorem finalTargetType_mem {add del : String → CallResult} {src tgt : RecordSet}
    (hadd : ∀ r ∈ setDiff src tgt, add r = .ok true)
    (hdel : ∀ r ∈ setDiff tgt src, del r = .ok true) (x : String) :
    x ∈ finalTargetType add del src tgt ↔ x ∈ src := by
  simp only [finalTargetType, List.mem_filter, List.mem_append, decide_eq_true_eq,
    mem_setDiff]
  by_cases hs : x ∈ src <;> by_cases ht : x ∈ tgt
  · simp [hs, ht]
  · have hx : add x = .ok true := hadd x (mem_setDiff.mpr ⟨hs, ht⟩)
    simp [hs, ht, hx]
  · have hx : del x = .ok true := hdel x (mem_setDiff.mpr ⟨ht, hs⟩)
    simp [hs, ht, hx]
  · simp [hs, ht]

/-- C1: per record type, `_apply_diff` (and `sync_records`) computes
`to_add = source − target` and `to_remove = target − source`; the two are
disjoint; when every `add_record`/`delete_record` call returns `True`
the target set afterwards equals the source set, and the stats report
`added = |to_add|` and `removed = |to_remove|` (summed over types) with
no conflicts. -/
theorem apply_diff_computes_exact_diff
    (source target : RecordMap) (add del : RType → String → CallResult)
    (hadd : ∀ (t : RType) (r : String),
      r ∈ setDiff (source.get t) (target.get t) → add t r = .ok true)
    (hdel : ∀ (t : RType) (r : String),
      r ∈ setDiff (target.get t) (source.get t) → del t r = .ok true) :
    (∀ (t : RType) (r : String),
      ¬(r ∈ setDiff (source.get t) (target.get t)
        ∧ r ∈ setDiff (target.get t) (source.get t)))
    ∧ (∀ (t : RType) (x : String),
        x ∈ finalTargetType (add t) (del t) (source.get t) (target.get t)
          ↔ x ∈ source.get t)
    ∧ (applyDiff source target add del).added
        = (setDiff (source.get .A) (target.get .A)).length
          + (setDiff (source.get .CNAME) (target.get .CNAME)).length
    ∧ (applyDiff source target add del).removed
        = (setDiff (target.get .A) (source.get .A)).length
          + (setDiff (target.get .CNAME) (source.get .CNAME)).length
    ∧ (applyDiff source target add del).conflicts = 0
    ∧ (syncRecords source target add del false).1.added
        = (setDiff (source.get .A) (target.get .A)).length
          + (setDiff (source.get .CNAME) (target.get .CNAME)).length
    ∧ (syncRecords source target add del false).1.removed
        = (setDiff (target.get .A) (source.get .A)).length
          + (setDiff (target.get .CNAME) (source.get .CNAME)).length := by
  refine ⟨?_, ?_, ?_, ?_, ?_, ?_, ?_⟩
  · rintro t r ⟨h1, h2⟩
    rw [mem_setDiff] at h1 h2
    tauto
  · intro t x
    exact finalTargetType_mem (hadd t) (hdel t) x
  · rw [applyDiff_eq]
    simp [cntOk_all (hadd .A), cntOk_all (hadd .CNAME)]
  · rw [applyDiff_eq]
    simp [cntOk_all (hdel .A), cntOk_all (hdel .CNAME)]
  · rw [applyDiff_eq]
    simp [cntNotOk_all (hadd .A), cntNotOk_all (hadd .CNAME),
      cntExn_all (hdel .A), cntExn_all (hdel .CNAME)]
  · rw [syncRecords_eq]
    simp [cntOk_all (hadd .A), cntOk_all (hadd .CNAME)]
  · rw [syncRecords_eq]
    simp [cntOk_all (hdel .A), cntOk_all (hdel .CNAME)]

/-- Witness for C1: hub `{A: {nas, pi}, CNAME: {alias}}` against spoke
`{A: {nas, stale}}` with every adapter call succeeding yields
`added = 2`, `removed = 1`, `conflicts = 0`. -/
theorem apply_diff_computes_exact_diff_witness :
    (applyDiff ⟨["1.2.3.4 nas.home", "5.6.7.8 pi.home"], ["alias.home -> nas.home"]⟩
        ⟨["1.2.3.4 nas.home", "9.9.9.9 stale.home"], []⟩
        (fun _ _ => .ok true) (fun _ _ => .ok true)).added = 2
    ∧ (applyDiff ⟨["1.2.3.4 nas.home", "5.6.7.8 pi.home"], ["alias.home -> nas.home"]⟩
        ⟨["1.2.3.4 nas.home", "9.9.9.9 stale.home"], []⟩
        (fun _ _ => .ok true) (fun _ _ => .ok true)).removed = 1
    ∧ (applyDiff ⟨["1.2.3.4 nas.home", "5.6.7.8 pi.home"], ["alias.home -> nas.home"]⟩
        ⟨["1.2.3.4 nas.home", "9.9.9.9 stale.home"], []⟩
        (fun _ _ => .ok true) (fun _ _ => .ok true)).conflicts = 0 := by
  have h := apply_diff_computes_exact_diff
    ⟨["1.2.3.4 nas.home", "5.6.7.8 pi.home"], ["alias.home -> nas.home"]⟩
    ⟨["1.2.3.4 nas.home", "9.9.9.9 stale.home"], []⟩
    (fun _ _ => .ok true) (fun _ _ => .ok true)
    (fun _ _ _ => rfl) (fun _ _ _ => rfl)
  exact ⟨h.2.2.1.trans (by decide), h.2.2.2.1.trans (by decide), h.2.2.2.2.1⟩

/-- C8: `sync_records` with `dry_run=True` issues no mutating adapter
call, and its `added`/`removed` stats are the `to_add`/`to_remove` sizes
summed over record types — exactly the sets the non-dry-run path mutates
(last conjunct). -/
theorem dry_run_no_mutations (source target : RecordMap)
    (add del : RType → String → CallResult) :
    (syncRecords source target add del true).2 = []
    ∧ (syncRecords source target add del true).1.added
        = (setDiff (source.get .A) (target.get .A)).length
          + (setDiff (source.get .CNAME) (target.get .CNAME)).length
    ∧ (syncRecords source target add del true).1.removed
        = (setDiff (target.get .A) (source.get .A)).length
          + (setDiff (target.get .CNAME) (source.get .CNAME)).length
    ∧ (syncRecords source target add del true).1.conflicts = 0
    ∧ (syncRecords source target add del false).2
        = (setDiff (source.get .A) (target.get .A)).map (MutCall.addCall .A)
          ++ (setDiff (target.get .A) (source.get .A)).map (MutCall.delCall .A)
          ++ ((setDiff (source.get .CNAME) (target.get .CNAME)).map (MutCall.addCall .CNAME)
          ++ (setDiff (target.get .CNAME) (source.get .CNAME)).map (MutCall.delCall .CNAME)) := by
  refine ⟨?_, ?_, ?_, ?_, ?_⟩
  · simp [syncRecords, syncRecordsType]
  · simp [syncRecords, syncRecordsType]
  · simp [syncRecords, syncRecordsType]
  · simp [syncRecords, syncRecordsType]
  · exact congrArg Prod.snd (syncRecords_eq source target add del)

theorem runSpokeBody_raised {hub : RecordMap} {cfg : SpokeCfg} {b : SpokeBehavior}
    {msg : String} {muts : List MutCall} (ha : b.adapter = .raised msg muts)
    (he : b.recordSyncErrorExn = none) :
    runSpokeBody hub cfg b =
      ⟨some (cfg.name, emptyStats), [mkRow cfg.name cfg.stype emptyStats (some msg)],
        [], [.syncFailed cfg.name cfg.stype msg], muts, none⟩ := by
  simp [runSpokeBody, errorStep, ha, he]

theorem runSpokeBody_ok {hub : RecordMap} {cfg : SpokeCfg} {b : SpokeBehavior}
    {stats : Stats} {muts : List MutCall} (ha : b.adapter = .complete stats muts)
    (h1 : b.saveSpokeExn = none) (h2 : b.recordSyncSuccessExn = none) :
    runSpokeBody hub cfg b =
      ⟨some (cfg.name, stats), [mkRow cfg.name cfg.stype stats none],
        [(cfg.name, hub)], [], muts, none⟩ := by
  simp [runSpokeBody, ha, h1, h2]

theorem runSpokeBody_no_uncaught {hub : RecordMap} {cfg : SpokeCfg} {b : SpokeBehavior}
    (he : b.recordSyncErrorExn = none) :
    (runSpokeBody hub cfg b).uncaught = none
    ∧ ∃ s, (runSpokeBody hub cfg b).res = some (cfg.name, s) := by
  rcases ha : b.adapter with ⟨msg, muts⟩ | ⟨stats, muts⟩
  · simp [runSpokeBody, errorStep, ha, he]
  · rcases hsv : b.saveSpokeExn with - | e
    · rcases hrs : b.recordSyncSuccessExn with - | e'
      · simp [runSpokeBody, errorStep, ha, he, hsv, hrs]
      · simp [runSpokeBody, errorStep, ha, he, hsv, hrs]
    · simp [runSpokeBody, errorStep, ha, he, hsv]

theorem syncAll_cons_disabled {hubCache : Option RecordMap} {cfg : SpokeCfg}
    {b : SpokeBehavior} {rest : List (SpokeCfg × SpokeBehavior)}
    (hen : cfg.enabled = false) :
    syncAllEnabledSpokes hubCache ((cfg, b) :: rest) =
      syncAllEnabledSpokes hubCache rest := by
  simp [syncAllEnabledSpokes, hen]

theorem syncAll_cons_enabled {hub : RecordMap} {cfg : SpokeCfg} {b : SpokeBehavior}
    {rest : List (SpokeCfg × SpokeBehavior)} (hen : cfg.enabled = true)
    (hun : (runSpokeBody hub cfg b).uncaught = none) :
    syncAllEnabledSpokes (some hub) ((cfg, b) :: rest) =
      ⟨(runSpokeBody hub cfg b).res.toList
          ++ (syncAllEnabledSpokes (some hub) rest).results,
        (runSpokeBody hub cfg b).hist
          ++ (syncAllEnabledSpokes (some hub) rest).history,
        (runSpokeBody hub cfg b).saves
          ++ (syncAllEnabledSpokes (some hub) rest).spokeSaves,
        (runSpokeBody hub cfg b).notifs
          ++ (syncAllEnabledSpokes (some hub) rest).notifications,
        (runSpokeBody hub cfg b).muts
          ++ (syncAllEnabledSpokes (some hub) rest).mutations,
        (syncAllEnabledSpokes (some hub) rest).uncaught⟩ := by
  rw [syncAllEnabledSpokes]
  simp only [hen, Bool.true_eq_false, if_false]
  rw [hun]

theorem syncAll_cons_nocache {cfg : SpokeCfg} {b : SpokeBehavior}
    {rest : List (SpokeCfg × SpokeBehavior)} (hen : cfg.enabled = true)
    (he : b.recordSyncErrorExn = none) :
    syncAllEnabledSpokes none ((cfg, b) :: rest) =
      ⟨(cfg.name, emptyStats) :: (syncAllEnabledSpokes none rest).results,
        mkRow cfg.name cfg.stype emptyStats (some cacheUnavailableMsg)
          :: (syncAllEnabledSpokes none rest).history,
        (syncAllEnabledSpokes none rest).spokeSaves,
        (syncAllEnabledSpokes none rest).notifications,
        (syncAllEnabledSpokes none rest).mutations,
        (syncAllEnabledSpokes none rest).uncaught⟩ := by
  rw [syncAllEnabledSpokes]
  simp [hen, he]

/-- C2 as amended: with the persistence layer healthy, an adapter
exception that escapes `_apply_diff` (from `create_server`, `connect` or
`get_records`) is absorbed by the per-spoke handler of
`sync_all_enabled_spokes`: nothing propagates out of the loop, every
enabled spoke has an entry in the returned map, and the failing spoke
gets empty stats, an error history row (status `"error"` whenever the
exception message is non-empty) and a sync-failed notification. An
exception raised by an individual `add_record`/`delete_record` call,
however, is caught per record inside `_apply_diff` and counted as a
conflict (last conjunct): the spoke completes with its computed stats, a
`status="success"` history row, and no notification — every notification
emitted originates from a spoke whose adapter raise escaped
`_apply_diff`. -/
theorem sync_all_isolates_spoke_failures
    (hub : RecordMap) (spokes : List (SpokeCfg × SpokeBehavior))
    (hdb : ∀ p ∈ spokes, p.2.saveSpokeExn = none
      ∧ p.2.recordSyncSuccessExn = none ∧ p.2.recordSyncErrorExn = none) :
    (syncAllEnabledSpokes (some hub) spokes).uncaught = none
    ∧ (∀ p ∈ spokes, p.1.enabled = true →
        ∃ s, (p.1.name, s) ∈ (syncAllEnabledSpokes (some hub) spokes).results)
    ∧ (∀ p ∈ spokes, p.1.enabled = true →
        ∀ (msg : String) (muts : List MutCall), p.2.adapter = .raised msg muts →
          (p.1.name, emptyStats) ∈ (syncAllEnabledSpokes (some hub) spokes).results
          ∧ mkRow p.1.name p.1.stype emptyStats (some msg)
              ∈ (syncAllEnabledSpokes (some hub) spokes).history
          ∧ Notif.syncFailed p.1.name p.1.stype msg
              ∈ (syncAllEnabledSpokes (some hub) spokes).notifications
          ∧ (msg ≠ "" →
              (mkRow p.1.name p.1.stype emptyStats (some msg)).status = "error"))
    ∧ (∀ p ∈ spokes, p.1.enabled = true →
        ∀ (stats : Stats) (muts : List MutCall), p.2.adapter = .complete stats muts →
          (p.1.name, stats) ∈ (syncAllEnabledSpokes (some hub) spokes).results
          ∧ mkRow p.1.name p.1.stype stats none
              ∈ (syncAllEnabledSpokes (some hub) spokes).history
          ∧ (mkRow p.1.name p.1.stype stats none).status = "success")
    ∧ (∀ n ∈ (syncAllEnabledSpokes (some hub) spokes).notifications,
        ∃ p, p ∈ spokes ∧ p.1.enabled = true
          ∧ ∃ (msg : String) (muts : List MutCall),
              p.2.adapter = .raised msg muts
              ∧ n = .syncFailed p.1.name p.1.stype msg)
    ∧ (∀ (src live : RecordMap) (add del : RType → String → CallResult),
        (applyDiff src live add del).conflicts
          = cntNotOk (add .A) (setDiff (src.get .A) (live.get .A))
            + cntExn (del .A) (setDiff (live.get .A) (src.get .A))
            + cntNotOk (add .CNAME) (setDiff (src.get .CNAME) (live.get .CNAME))
            + cntExn (del .CNAME) (setDiff (live.get .CNAME) (src.get .CNAME))) := by
  have main : (syncAllEnabledSpokes (some hub) spokes).uncaught = none
      ∧ (∀ p ∈ spokes, p.1.enabled = true →
          ∃ s, (p.1.name, s) ∈ (syncAllEnabledSpokes (some hub) spokes).results)
      ∧ (∀ p ∈ spokes, p.1.enabled = true →
          ∀ (msg : String) (muts : List MutCall), p.2.adapter = .raised msg muts →
            (p.1.name, emptyStats) ∈ (syncAllEnabledSpokes (some hub) spokes).results
            ∧ mkRow p.1.name p.1.stype emptyStats (some msg)
                ∈ (syncAllEnabledSpokes (some hub) spokes).history
            ∧ Notif.syncFailed p.1.name p.1.stype msg
                ∈ (syncAllEnabledSpokes (some hub) spokes).notifications
            ∧ (msg ≠ "" →
                (mkRow p.1.name p.1.stype emptyStats (some msg)).status = "error"))
      ∧ (∀ p ∈ spokes, p.1.enabled = true →
          ∀ (stats : Stats) (muts : List MutCall), p.2.adapter = .complete stats muts →
            (p.1.name, stats) ∈ (syncAllEnabledSpokes (some hub) spokes).results
            ∧ mkRow p.1.name p.1.stype stats none
                ∈ (syncAllEnabledSpokes (some hub) spokes).history
            ∧ (mkRow p.1.name p.1.stype stats none).status = "success")
      ∧ (∀ n ∈ (syncAllEnabledSpokes (some hub) spokes).notifications,
          ∃ p, p ∈ spokes ∧ p.1.enabled = true
            ∧ ∃ (msg : String) (muts : List MutCall),
                p.2.adapter = .raised msg muts
                ∧ n = .syncFailed p.1.name p.1.stype msg) := by
    induction spokes with
    | nil => simp [syncAllEnabledSpokes]
    | cons p rest ih =>
      obtain ⟨cfg, b⟩ := p
      obtain ⟨h1, h2, h3⟩ := hdb (cfg, b) (List.mem_cons_self _ _)
      have hdbr := fun q hq => hdb q (List.mem_cons_of_mem _ hq)
      obtain ⟨ihu, ihall, ihraise, ihok, ihnotif⟩ := ih hdbr
      by_cases hen : cfg.enabled = true
      · rcases hb : b.adapter with ⟨msg0, muts0⟩ | ⟨stats0, muts0⟩
        · have hstep := @runSpokeBody_raised hub cfg b msg0 muts0 hb h3
          rw [syncAll_cons_enabled hen (by rw [hstep]), hstep]
          refine ⟨ihu, ?_, ?_, ?_, ?_⟩
          · intro q hq hqe
            rcases List.mem_cons.mp hq with rfl | hq'
            · exact ⟨emptyStats, by simp⟩
            · obtain ⟨s, hs⟩ := ihall q hq' hqe
              exact ⟨s, by simp [hs]⟩
          · intro q hq hqe msg muts hq2
            rcases List.mem_cons.mp hq with rfl | hq'
            · rw [hb] at hq2
              injection hq2 with e1 e2
              subst e1
              refine ⟨by simp, by simp, by simp, ?_⟩
              intro hmsg
              simp [mkRow, pyTruthy, hmsg]
            · obtain ⟨a1, a2, a3, a4⟩ := ihraise q hq' hqe msg muts hq2
              exact ⟨by simp [a1], by simp [a2], by simp [a3], a4⟩
          · intro q hq hqe stats muts hq2
            rcases List.mem_cons.mp hq with rfl | hq'
            · rw [hb] at hq2
              simp at hq2
            · obtain ⟨a1, a2, a3⟩ := ihok q hq' hqe stats muts hq2
              exact ⟨by simp [a1], by simp [a2], a3⟩
          · intro n hn
            have hn2 : n = Notif.syncFailed cfg.name cfg.stype msg0
                ∨ n ∈ (syncAllEnabledSpokes (some hub) rest).notifications := by
              simpa using hn
            rcases hn2 with rfl | hn3
            · exact ⟨(cfg, b), List.mem_cons_self _ _, hen, msg0, muts0, hb, rfl⟩
            · obtain ⟨p2, hp2, hpe, msg, muts, hpa, hne⟩ := ihnotif n hn3
              exact ⟨p2, List.mem_cons_of_mem _ hp2, hpe, msg, muts, hpa, hne⟩
        · have hstep := @runSpokeBody_ok hub cfg b stats0 muts0 hb h1 h2
          rw [syncAll_cons_enabled hen (by rw [hstep]), hstep]
          refine ⟨ihu, ?_, ?_, ?_, ?_⟩
          · intro q hq hqe
            rcases List.mem_cons.mp hq with rfl | hq'
            · exact ⟨stats0, by simp⟩
            · obtain ⟨s, hs⟩ := ihall q hq' hqe
              exact ⟨s, by simp [hs]⟩
          · intro q hq hqe msg muts hq2
            rcases List.mem_cons.mp hq with rfl | hq'
            · rw [hb] at hq2
              simp at hq2
            · obtain ⟨a1, a2, a3, a4⟩ := ihraise q hq' hqe msg muts hq2
              exact ⟨by simp [a1], by simp [a2], by simp [a3], a4⟩
          · intro q hq hqe stats muts hq2
            rcases List.mem_cons.mp hq with rfl | hq'
            · rw [hb] at hq2
              injection hq2 with e1 e2
              subst e1
              exact ⟨by simp, by simp, by simp [mkRow, pyTruthy]⟩
            · obtain ⟨a1, a2, a3⟩ := ihok q hq' hqe stats muts hq2
              exact ⟨by simp [a1], by simp [a2], a3⟩
          · intro n hn
            have hn3 : n ∈ (syncAllEnabledSpokes (some hub) rest).notifications := by
              simpa using hn
            obtain ⟨p2, hp2, hpe, msg, muts, hpa, hne⟩ := ihnotif n hn3
            exact ⟨p2, List.mem_cons_of_mem _ hp2, hpe, msg, muts, hpa, hne⟩
      · have hen2 : cfg.enabled = false := by
          revert hen; cases cfg.enabled <;> simp
        rw [syncAll_cons_disabled hen2]
        refine ⟨ihu, ?_, ?_, ?_, ?_⟩
        · intro q hq hqe
          rcases List.mem_cons.mp hq with rfl | hq'
          · exact absurd hqe hen
          · exact ihall q hq' hqe
        · intro q hq hqe msg muts hq2
          rcases List.mem_cons.mp hq with rfl | hq'
          · exact absurd hqe hen
          · exact ihraise q hq' hqe msg muts hq2
        · intro q hq hqe stats muts hq2
          rcases List.mem_cons.mp hq with rfl | hq'
          · exact absurd hqe hen
          · exact ihok q hq' hqe stats muts hq2
        · intro n hn
          obtain ⟨p2, hp2, hpe, msg, muts, hpa, hne⟩ := ihnotif n hn
          exact ⟨p2, List.mem_cons_of_mem _ hp2, hpe, msg, muts, hpa, hne⟩
  obtain ⟨m1, m2, m3, m4, m5⟩ := main
  refine ⟨m1, m2, m3, m4, m5, ?_⟩
  intro src live add del
  rw [applyDiff_eq]

/-- Counterexample for C2 as originally stated: an exception raised by
an `add_record` call does NOT give the spoke an error history row or a
sync-failed notification — `_apply_diff` catches it per record
(sync.py lines 166-168), counts a conflict, and the spoke finishes with
a `status="success"` row and an empty notification list. -/
theorem add_raise_counted_as_conflict_counterexample :
    (applyDiff ⟨["5.6.7.8 pi.home"], []⟩ ⟨[], []⟩
      (fun _ _ => .exn "boom") (fun _ _ => .ok true)).conflicts = 1
    ∧ (syncAllEnabledSpokes (some ⟨["5.6.7.8 pi.home"], []⟩)
        [(⟨"spokeB", "adguard", true⟩,
          ⟨.complete (applyDiff ⟨["5.6.7.8 pi.home"], []⟩ ⟨[], []⟩
              (fun _ _ => .exn "boom") (fun _ _ => .ok true)) [],
            none, none, none⟩)]).notifications = []
    ∧ (syncAllEnabledSpokes (some ⟨["5.6.7.8 pi.home"], []⟩)
        [(⟨"spokeB", "adguard", true⟩,
          ⟨.complete (applyDiff ⟨["5.6.7.8 pi.home"], []⟩ ⟨[], []⟩
              (fun _ _ => .exn "boom") (fun _ _ => .ok true)) [],
            none, none, none⟩)]).history
      = [mkRow "spokeB" "adguard"
          (applyDiff ⟨["5.6.7.8 pi.home"], []⟩ ⟨[], []⟩
            (fun _ _ => .exn "boom") (fun _ _ => .ok true)) none]
    ∧ (mkRow "spokeB" "adguard"
        (applyDiff ⟨["5.6.7.8 pi.home"], []⟩ ⟨[], []⟩
          (fun _ _ => .exn "boom") (fun _ _ => .ok true)) none).status = "success"
    ∧ ¬((mkRow "spokeB" "adguard"
        (applyDiff ⟨["5.6.7.8 pi.home"], []⟩ ⟨[], []⟩
          (fun _ _ => .exn "boom") (fun _ _ => .ok true)) none).status = "error") := by
  decide

/-- Witness for C2 as amended: spoke A completes, spoke B raises out of
`_apply_diff`; both appear in the results, B gets the failure treatment
and A gets its stats with a success row. -/
theorem sync_all_isolates_spoke_failures_witness :
    (syncAllEnabledSpokes (some ⟨["1.2.3.4 nas.home"], []⟩)
      [(⟨"spokeA", "pihole", true⟩, ⟨.complete ⟨1, 0, 0, 1, 0⟩ [], none, none, none⟩),
       (⟨"spokeB", "adguard", true⟩, ⟨.raised "boom" [], none, none, none⟩)]).uncaught
      = none
    ∧ ("spokeA", Stats.mk 1 0 0 1 0) ∈ (syncAllEnabledSpokes (some ⟨["1.2.3.4 nas.home"], []⟩)
      [(⟨"spokeA", "pihole", true⟩, ⟨.complete ⟨1, 0, 0, 1, 0⟩ [], none, none, none⟩),
       (⟨"spokeB", "adguard", true⟩, ⟨.raised "boom" [], none, none, none⟩)]).results
    ∧ mkRow "spokeA" "pihole" ⟨1, 0, 0, 1, 0⟩ none ∈ (syncAllEnabledSpokes
        (some ⟨["1.2.3.4 nas.home"], []⟩)
      [(⟨"spokeA", "pihole", true⟩, ⟨.complete ⟨1, 0, 0, 1, 0⟩ [], none, none, none⟩),
       (⟨"spokeB", "adguard", true⟩, ⟨.raised "boom" [], none, none, none⟩)]).history
    ∧ (mkRow "spokeA" "pihole" ⟨1, 0, 0, 1, 0⟩ none).status = "success"
    ∧ ("spokeB", emptyStats) ∈ (syncAllEnabledSpokes (some ⟨["1.2.3.4 nas.home"], []⟩)
      [(⟨"spokeA", "pihole", true⟩, ⟨.complete ⟨1, 0, 0, 1, 0⟩ [], none, none, none⟩),
       (⟨"spokeB", "adguard", true⟩, ⟨.raised "boom" [], none, none, none⟩)]).results
    ∧ Notif.syncFailed "spokeB" "adguard" "boom"
        ∈ (syncAllEnabledSpokes (some ⟨["1.2.3.4 nas.home"], []⟩)
      [(⟨"spokeA", "pihole", true⟩, ⟨.complete ⟨1, 0, 0, 1, 0⟩ [], none, none, none⟩),
       (⟨"spokeB", "adguard", true⟩, ⟨.raised "boom" [], none, none, none⟩)]).notifications := by
  have h := sync_all_isolates_spoke_failures ⟨["1.2.3.4 nas.home"], []⟩
    [(⟨"spokeA", "pihole", true⟩, ⟨.complete ⟨1, 0, 0, 1, 0⟩ [], none, none, none⟩),
     (⟨"spokeB", "adguard", true⟩, ⟨.raised "boom" [], none, none, none⟩)]
    (by decide)
  obtain ⟨h1, h2, h3, h4, h5, h6⟩ := h
  have hB := h3 (⟨"spokeB", "adguard", true⟩, ⟨.raised "boom" [], none, none, none⟩)
    (by decide) rfl "boom" [] rfl
  have hA := h4 (⟨"spokeA", "pihole", true⟩, ⟨.complete ⟨1, 0, 0, 1, 0⟩ [], none, none, none⟩)
    (by decide) rfl ⟨1, 0, 0, 1, 0⟩ [] rfl
  exact ⟨h1, hA.1, hA.2.1, hA.2.2, hB.1, hB.2.2.1⟩

theorem syncAll_none_inert (spokes : List (SpokeCfg × SpokeBehavior)) :
    (syncAllEnabledSpokes none spokes).mutations = []
    ∧ (syncAllEnabledSpokes none spokes).spokeSaves = []
    ∧ (syncAllEnabledSpokes none spokes).notifications = [] := by
  induction spokes with
  | nil => simp [syncAllEnabledSpokes]
  | cons p rest ih =>
    obtain ⟨cfg, b⟩ := p
    rcases hen : cfg.enabled with - | -
    · simpa [syncAllEnabledSpokes, hen] using ih
    · rcases hb : b.recordSyncErrorExn with - | e2
      · simpa [syncAllEnabledSpokes, hen, hb] using ih
      · simp [syncAllEnabledSpokes, hen, hb]

theorem syncAll_none_rows (spokes : List (SpokeCfg × SpokeBehavior))
    (hdb : ∀ p ∈ spokes, p.2.recordSyncErrorExn = none) :
    (syncAllEnabledSpokes none spokes).uncaught = none
    ∧ ∀ p ∈ spokes, p.1.enabled = true →
        (p.1.name, emptyStats) ∈ (syncAllEnabledSpokes none spokes).results
        ∧ mkRow p.1.name p.1.stype emptyStats (some cacheUnavailableMsg)
            ∈ (syncAllEnabledSpokes none spokes).history := by
  induction spokes with
  | nil => simp [syncAllEnabledSpokes]
  | cons p rest ih =>
    obtain ⟨cfg, b⟩ := p
    have hb := hdb (cfg, b) (List.mem_cons_self _ _)
    have hdbr := fun q hq => hdb q (List.mem_cons_of_mem _ hq)
    obtain ⟨ihu, ihrows⟩ := ih hdbr
    rcases hen : cfg.enabled with - | -
    · rw [syncAll_cons_disabled hen]
      refine ⟨ihu, ?_⟩
      intro q hq hqe
      rcases List.mem_cons.mp hq with rfl | hq'
      · rw [hen] at hqe; cases hqe
      · exact ihrows q hq' hqe
    · rw [syncAll_cons_nocache hen hb]
      refine ⟨ihu, ?_⟩
      intro q hq hqe
      rcases List.mem_cons.mp hq with rfl | hq'
      · exact ⟨List.mem_cons_self _ _, List.mem_cons_self _ _⟩
      · obtain ⟨hr1, hr2⟩ := ihrows q hq' hqe
        exact ⟨List.mem_cons_of_mem _ hr1, List.mem_cons_of_mem _ hr2⟩

/-- C3: when the hub adapter raises, `refresh_hub_cache` notifies
hub-unreachable and returns whatever cache is persisted (`none` when
there is none) instead of raising; and when the hub cache is unavailable,
`sync_all_enabled_spokes` gives every enabled spoke an error history row
with the cache-unavailable message, touches no adapter (no mutating
calls), and persists nothing. -/
theorem hub_failure_degrades_without_raising
    (hubName hubType e : String) (hb : HubBehavior) (cached : Option RecordMap)
    (hfetch : hb.fetch = .error e)
    (spokes : List (SpokeCfg × SpokeBehavior))
    (hdb : ∀ p ∈ spokes, p.2.recordSyncErrorExn = none) :
    refreshHubCache hubName hubType hb cached =
      ⟨cached, [], [.hubUnreachable hubName hubType e]⟩
    ∧ (syncAllEnabledSpokes none spokes).mutations = []
    ∧ (syncAllEnabledSpokes none spokes).spokeSaves = []
    ∧ (syncAllEnabledSpokes none spokes).uncaught = none
    ∧ ∀ p ∈ spokes, p.1.enabled = true →
        (p.1.name, emptyStats) ∈ (syncAllEnabledSpokes none spokes).results
        ∧ mkRow p.1.name p.1.stype emptyStats (some cacheUnavailableMsg)
            ∈ (syncAllEnabledSpokes none spokes).history
        ∧ (mkRow p.1.name p.1.stype emptyStats (some cacheUnavailableMsg)).status
            = "error" := by
  obtain ⟨hi1, hi2, -⟩ := syncAll_none_inert spokes
  obtain ⟨hu, hrows⟩ := syncAll_none_rows spokes hdb
  refine ⟨by simp [refreshHubCache, hfetch], hi1, hi2, hu, ?_⟩
  intro q hq hqe
  obtain ⟨hr1, hr2⟩ := hrows q hq hqe
  exact ⟨hr1, hr2, by simp [mkRow, pyTruthy, cacheUnavailableMsg]⟩

/-- Witness for C3: no cache exists, hub fetch raises; the refresh
returns `none` with a hub-unreachable notification, and the one enabled
spoke is marked error with no mutations. -/
theorem hub_failure_degrades_without_raising_witness :
    refreshHubCache "hub1" "pihole" ⟨.error "conn refused", none⟩ none =
      ⟨none, [], [.hubUnreachable "hub1" "pihole" "conn refused"]⟩
    ∧ ("spokeA", emptyStats) ∈ (syncAllEnabledSpokes none
        [(⟨"spokeA", "adguard", true⟩,
          ⟨.complete ⟨0, 0, 0, 0, 0⟩ [], none, none, none⟩)]).results
    ∧ mkRow "spokeA" "adguard" emptyStats (some cacheUnavailableMsg)
        ∈ (syncAllEnabledSpokes none
        [(⟨"spokeA", "adguard", true⟩,
          ⟨.complete ⟨0, 0, 0, 0, 0⟩ [], none, none, none⟩)]).history
    ∧ (syncAllEnabledSpokes none
        [(⟨"spokeA", "adguard", true⟩,
          ⟨.complete ⟨0, 0, 0, 0, 0⟩ [], none, none, none⟩)]).mutations = [] := by
  have h := hub_failure_degrades_without_raising "hub1" "pihole" "conn refused"
    ⟨.error "conn refused", none⟩ none rfl
    [(⟨"spokeA", "adguard", true⟩, ⟨.complete ⟨0, 0, 0, 0, 0⟩ [], none, none, none⟩)]
    (by decide)
  have hq := h.2.2.2.2 (⟨"spokeA", "adguard", true⟩,
    ⟨.complete ⟨0, 0, 0, 0, 0⟩ [], none, none, none⟩) (by decide) rfl
  exact ⟨h.1, hq.1, hq.2.1, h.2.1⟩

theorem syncAll_saves_mem {hub : RecordMap} {cfg : SpokeCfg} {b : SpokeBehavior}
    {stats : Stats} {muts : List MutCall}
    (hen : cfg.enabled = true) (ha : b.adapter = .complete stats muts)
    (h1 : b.saveSpokeExn = none) (h2 : b.recordSyncSuccessExn = none)
    (spokes : List (SpokeCfg × SpokeBehavior))
    (hdb : ∀ p ∈ spokes, p.2.recordSyncErrorExn = none)
    (hmem : (cfg, b) ∈ spokes) :
    (cfg.name, hub) ∈ (syncAllEnabledSpokes (some hub) spokes).spokeSaves := by
  induction spokes with
  | nil => cases hmem
  | cons p rest ih =>
    have hp := hdb p (List.mem_cons_self _ _)
    have hdbr := fun q hq => hdb q (List.mem_cons_of_mem _ hq)
    obtain ⟨pc, pb⟩ := p
    rcases List.mem_cons.mp hmem with heq | hmem'
    · obtain ⟨rfl, rfl⟩ := Prod.mk.injEq .. ▸ heq
      have hun := (@runSpokeBody_no_uncaught hub cfg b hp).1
      rw [syncAll_cons_enabled hen hun, runSpokeBody_ok ha h1 h2]
      exact List.mem_append_left _ (List.mem_cons_self _ _)
    · rcases henp : pc.enabled with - | -
      · rw [syncAll_cons_disabled henp]
        exact ih hdbr hmem'
      · have hun := (@runSpokeBody_no_uncaught hub pc pb hp).1
        rw [syncAll_cons_enabled henp hun]
        exact List.mem_append_right _ (ih hdbr hmem')

/-- C5: after a successful spoke reconciliation, both
`sync_all_enabled_spokes` and `perform_sync` persist the hub snapshot
that was applied as the spoke's stored state
(`db.save_spoke_records(db_path, spoke_name, hub_records)`), and
`perform_sync` returns the reconciliation stats. -/
theorem spoke_state_persisted_as_hub_snapshot
    (hub : RecordMap) (cfg : SpokeCfg) (b : SpokeBehavior)
    (stats : Stats) (muts : List MutCall)
    (hen : cfg.enabled = true) (ha : b.adapter = .complete stats muts)
    (h1 : b.saveSpokeExn = none) (h2 : b.recordSyncSuccessExn = none)
    (spokes : List (SpokeCfg × SpokeBehavior))
    (hdb : ∀ p ∈ spokes, p.2.recordSyncErrorExn = none)
    (hmem : (cfg, b) ∈ spokes)
    (hubName hubType : String) (hb : HubBehavior) (cached : Option RecordMap)
    (hf : hb.fetch = .ok hub) (hs : hb.saveHubExn = none) :
    (cfg.name, hub) ∈ (syncAllEnabledSpokes (some hub) spokes).spokeSaves
    ∧ (performSync hubName hubType hb cached cfg b).spokeSaves = [(cfg.name, hub)]
    ∧ (performSync hubName hubType hb cached cfg b).result = some stats
    ∧ (performSync hubName hubType hb cached cfg b).hubSaves = [(hubName, hub)] := by
  refine ⟨syncAll_saves_mem hen ha h1 h2 spokes hdb hmem, ?_, ?_, ?_⟩ <;>
    simp [performSync, hen, refreshHubCache, hf, hs, runSpokeBody_ok ha h1 h2]

/-- Witness for C5 at a concrete hub snapshot and spoke. -/
theorem spoke_state_persisted_as_hub_snapshot_witness :
    ("spokeA", RecordMap.mk ["1.2.3.4 nas.home"] ["alias.home -> nas.home"])
      ∈ (syncAllEnabledSpokes (some ⟨["1.2.3.4 nas.home"], ["alias.home -> nas.home"]⟩)
        [(⟨"spokeA", "pihole", true⟩,
          ⟨.complete ⟨1, 0, 0, 1, 1⟩ [], none, none, none⟩)]).spokeSaves
    ∧ (performSync "hub1" "adguard" ⟨.ok ⟨["1.2.3.4 nas.home"], ["alias.home -> nas.home"]⟩, none⟩
        none ⟨"spokeA", "pihole", true⟩
        ⟨.complete ⟨1, 0, 0, 1, 1⟩ [], none, none, none⟩).spokeSaves
      = [("spokeA", ⟨["1.2.3.4 nas.home"], ["alias.home -> nas.home"]⟩)]
    ∧ (performSync "hub1" "adguard" ⟨.ok ⟨["1.2.3.4 nas.home"], ["alias.home -> nas.home"]⟩, none⟩
        none ⟨"spokeA", "pihole", true⟩
        ⟨.complete ⟨1, 0, 0, 1, 1⟩ [], none, none, none⟩).result = some ⟨1, 0, 0, 1, 1⟩ := by
  have h := spoke_state_persisted_as_hub_snapshot
    ⟨["1.2.3.4 nas.home"], ["alias.home -> nas.home"]⟩
    ⟨"spokeA", "pihole", true⟩ ⟨.complete ⟨1, 0, 0, 1, 1⟩ [], none, none, none⟩
    ⟨1, 0, 0, 1, 1⟩ [] rfl rfl rfl rfl
    [(⟨"spokeA", "pihole", true⟩, ⟨.complete ⟨1, 0, 0, 1, 1⟩ [], none, none, none⟩)]
    (by decide) (by decide)
    "hub1" "adguard" ⟨.ok ⟨["1.2.3.4 nas.home"], ["alias.home -> nas.home"]⟩, none⟩
    none rfl rfl
  exact ⟨h.1, h.2.1, h.2.2.1⟩

/-- Counterexample for C6: the spoke's reconciliation succeeded with
`added = 1`, but the success-path `record_sync` raised; the claim says
the persistence failure is only logged and not propagated into the
reconciliation result, yet the returned map carries empty stats and an
error row instead of the computed stats. -/
theorem record_sync_failure_alters_result_counterexample :
    (syncAllEnabledSpokes (some ⟨["1.2.3.4 nas.home"], []⟩)
      [(⟨"spokeA", "pihole", true⟩,
        ⟨.complete ⟨1, 0, 0, 1, 0⟩ [], none, some "disk full", none⟩)]).results
      ≠ [("spokeA", ⟨1, 0, 0, 1, 0⟩)]
    ∧ (syncAllEnabledSpokes (some ⟨["1.2.3.4 nas.home"], []⟩)
      [(⟨"spokeA", "pihole", true⟩,
        ⟨.complete ⟨1, 0, 0, 1, 0⟩ [], none, some "disk full", none⟩)]).results
      = [("spokeA", emptyStats)]
    ∧ (syncAllEnabledSpokes (some ⟨["1.2.3.4 nas.home"], []⟩)
      [(⟨"spokeA", "pihole", true⟩,
        ⟨.complete ⟨1, 0, 0, 1, 0⟩ [], none, some "disk full", none⟩)]).history
      = [mkRow "spokeA" "pihole" emptyStats (some "disk full")] := by
  decide

/-- C6 as amended: `record_sync` itself has no error handling. A raise
from the success-path `record_sync` call is caught by the per-spoke
handler: it does not escape the loop, but it replaces the spoke's
computed stats with empty stats, records a `status="error"` history row
carrying the persistence error, and emits a sync-failed notification —
while the spoke-state save that already happened stands. A raise from
the error-path `record_sync` call propagates out of
`sync_all_enabled_spokes`. -/
theorem record_sync_failure_behavior
    (hub : RecordMap) (cfg : SpokeCfg) (stats : Stats) (muts : List MutCall)
    (e e2 : String) (hen : cfg.enabled = true) (he : e ≠ "") :
    syncAllEnabledSpokes (some hub) [(cfg, ⟨.complete stats muts, none, some e, none⟩)]
      = ⟨[(cfg.name, emptyStats)], [mkRow cfg.name cfg.stype emptyStats (some e)],
          [(cfg.name, hub)], [.syncFailed cfg.name cfg.stype e], muts, none⟩
    ∧ (mkRow cfg.name cfg.stype emptyStats (some e)).status = "error"
    ∧ (syncAllEnabledSpokes (some hub)
        [(cfg, ⟨.complete stats muts, none, some e, some e2⟩)]).uncaught = some e2 := by
  refine ⟨?_, by simp [mkRow, pyTruthy, he], ?_⟩
  · rw [syncAll_cons_enabled hen (by simp [runSpokeBody, errorStep])]
    simp [runSpokeBody, errorStep, syncAllEnabledSpokes]
  · rw [syncAllEnabledSpokes]
    simp [hen, runSpokeBody, errorStep]

/-- Witness for C6's amended statement. -/
theorem record_sync_failure_behavior_witness :
    syncAllEnabledSpokes (some ⟨["1.2.3.4 nas.home"], []⟩)
      [(⟨"spokeA", "pihole", true⟩,
        ⟨.complete ⟨1, 0, 0, 1, 0⟩ [], none, some "disk full", none⟩)]
      = ⟨[("spokeA", emptyStats)], [mkRow "spokeA" "pihole" emptyStats (some "disk full")],
          [("spokeA", ⟨["1.2.3.4 nas.home"], []⟩)],
          [.syncFailed "spokeA" "pihole" "disk full"], [], none⟩
    ∧ (syncAllEnabledSpokes (some ⟨["1.2.3.4 nas.home"], []⟩)
        [(⟨"spokeA", "pihole", true⟩,
          ⟨.complete ⟨1, 0, 0, 1, 0⟩ [], none, some "disk full", some "db locked"⟩)]).uncaught
      = some "db locked" := by
  have h := record_sync_failure_behavior ⟨["1.2.3.4 nas.home"], []⟩
    ⟨"spokeA", "pihole", true⟩ ⟨1, 0, 0, 1, 0⟩ [] "disk full" "db locked"
    rfl (by decide)
  exact ⟨h.1, h.2.2⟩

theorem splitOnce_eq (sep : List Char) :
    ∀ (s pre post : List Char), splitOnce sep s = some (pre, post) →
      s = pre ++ sep ++ post := by
  intro s
  induction s with
  | nil =>
    intro pre post h
    rw [splitOnce] at h
    by_cases hs : sep = []
    · rw [if_pos hs] at h
      rw [Option.some.injEq, Prod.mk.injEq] at h
      obtain ⟨h1, h2⟩ := h
      subst h1; subst h2
      simp [hs]
    · rw [if_neg hs] at h
      cases h
  | cons c rest ih =>
    intro pre post h
    rw [splitOnce] at h
    by_cases hp : sep.isPrefixOf (c :: rest)
    · rw [if_pos hp] at h
      rw [Option.some.injEq, Prod.mk.injEq] at h
      obtain ⟨h1, h2⟩ := h
      subst h1; subst h2
      have hp2 : sep <+: c :: rest := by simpa using hp
      obtain ⟨t, ht⟩ := hp2
      rw [← ht, List.drop_left]
      simp
    · rw [if_neg hp] at h
      cases hsp : splitOnce sep rest with
      | none => rw [hsp] at h; cases h
      | some p =>
        obtain ⟨a, b2⟩ := p
        rw [hsp] at h
        rw [Option.some.injEq, Prod.mk.injEq] at h
        obtain ⟨h1, h2⟩ := h
        subst h1; subst h2
        have hr := ih a b2 hsp
        simp [hr]

/-- C7: parse↔format is lossless — whenever `from_a_string` succeeds
(the string contains a space), `to_a_format` returns the identical
string, and likewise for `from_cname_string`/`to_cname_format` on
strings containing `" -> "`. -/
theorem record_string_roundtrip (s : String) :
    (∀ r, DNSRecord.from_a_string s = some r → r.to_a_format = s)
    ∧ (∀ r, DNSRecord.from_cname_string s = some r → r.to_cname_format = s) := by
  constructor
  · intro r h
    unfold DNSRecord.from_a_string at h
    cases hs : splitOnce [' '] s.data with
    | none => rw [hs] at h; cases h
    | some p =>
      obtain ⟨ip, dom⟩ := p
      rw [hs, Option.some.injEq] at h
      subst h
      have hd := splitOnce_eq [' '] s.data ip dom hs
      apply String.ext
      simp [DNSRecord.to_a_format, String.data_append, hd]
  · intro r h
    unfold DNSRecord.from_cname_string at h
    cases hs : splitOnce " -> ".data s.data with
    | none => rw [hs] at h; cases h
    | some p =>
      obtain ⟨dom, tgt⟩ := p
      rw [hs, Option.some.injEq] at h
      subst h
      have hd := splitOnce_eq " -> ".data s.data dom tgt hs
      apply String.ext
      simp [DNSRecord.to_cname_format, String.data_append, hd]

/-- Witness for C7 on the spec's example strings. -/
theorem record_string_roundtrip_witness :
    DNSRecord.from_a_string "1.2.3.4 nas.home"
      = some ⟨"nas.home", "1.2.3.4", "A", none⟩
    ∧ (DNSRecord.mk "nas.home" "1.2.3.4" "A" none).to_a_format = "1.2.3.4 nas.home"
    ∧ DNSRecord.from_cname_string "alias.home -> nas.home"
      = some ⟨"alias.home", "nas.home", "CNAME", none⟩
    ∧ (DNSRecord.mk "alias.home" "nas.home" "CNAME" none).to_cname_format
      = "alias.home -> nas.home" := by
  have ha : DNSRecord.from_a_string "1.2.3.4 nas.home"
      = some ⟨"nas.home", "1.2.3.4", "A", none⟩ := by decide
  have hc : DNSRecord.from_cname_string "alias.home -> nas.home"
      = some ⟨"alias.home", "nas.home", "CNAME", none⟩ := by decide
  exact ⟨ha, (record_string_roundtrip "1.2.3.4 nas.home").1 _ ha, hc,
    (record_string_roundtrip "alias.home -> nas.home").2 _ hc⟩

theorem requestRetryLoop_attempts_le (retries : Nat) (f : Nat → ReqOutcome) :
    ∀ l : List Nat, (requestRetryLoop retries f l).2.2 ≤ l.length := by
  intro l
  induction l with
  | nil => simp [requestRetryLoop]
  | cons a rest ih =>
    rw [requestRetryLoop]
    cases f a with
    | success => simp
    | failure e =>
      by_cases ha : a = retries - 1
      · simp [ha]
      · simp only [ha, if_false]
        simpa using ih

theorem requestRetryLoop_all_fail (retries : Nat) (f : Nat → ReqOutcome)
    (es : Nat → String) (hf : ∀ i, i < retries → f i = .failure (es i)) :
    ∀ (n a : Nat), a + n = retries → 0 < n →
      requestRetryLoop retries f (List.range' a n) =
        (.exnRaised (es (retries - 1)),
          (List.range' (a + 1) (n - 1)).map (fun i => i * 2), n) := by
  intro n
  induction n with
  | zero => intro a _ h0; cases h0
  | succ m ih =>
    intro a ha _
    rw [List.range'_succ, requestRetryLoop, hf a (by omega)]
    by_cases ham : a = retries - 1
    · have hm : m = 0 := by omega
      subst hm
      simp [ham]
    · have hm : 0 < m := by omega
      dsimp only
      rw [if_neg ham, ih (a + 1) (by omega) hm]
      have hr2 : List.range' (a + 1) m = (a + 1) :: List.range' (a + 2) (m - 1) :=
        List.range'_eq_cons_iff.mpr ⟨rfl, hm, rfl⟩
      simp [hr2]

/-- C9: when every attempt fails at the transport level,
`_request_with_retry` makes exactly `retries` attempts (default 3),
sleeps 2s, 4s, 6s, … between consecutive attempts, and re-raises the
final attempt's exception; for any outcome sequence the attempt count is
bounded by `retries`. -/
theorem request_retry_bounded (retries : Nat) (f : Nat → ReqOutcome)
    (es : Nat → String) (hr : 1 ≤ retries)
    (hf : ∀ i, i < retries → f i = .failure (es i)) :
    (requestWithRetry retries f).1 = .exnRaised (es (retries - 1))
    ∧ (requestWithRetry retries f).2.2 = retries
    ∧ (requestWithRetry retries f).2.1
        = (List.range' 1 (retries - 1)).map (fun i => i * 2)
    ∧ (∀ g : Nat → ReqOutcome, (requestWithRetry retries g).2.2 ≤ retries)
    ∧ defaultRetries = 3 := by
  have h := requestRetryLoop_all_fail retries f es hf retries 0 (by omega) (by omega)
  rw [Nat.zero_add] at h
  refine ⟨?_, ?_, ?_, ?_, rfl⟩
  · rw [requestWithRetry, List.range_eq_range', h]
  · rw [requestWithRetry, List.range_eq_range', h]
  · rw [requestWithRetry, List.range_eq_range', h]
  · intro g
    have := requestRetryLoop_attempts_le retries g (List.range retries)
    simpa [requestWithRetry] using this

/-- Witness for C9: three attempts all failing — attempts = 3,
waits = [2, 4], the third attempt's exception is re-raised. -/
theorem request_retry_bounded_witness :
    (requestWithRetry 3 (fun _ => .failure "timeout")).1 = .exnRaised "timeout"
    ∧ (requestWithRetry 3 (fun _ => .failure "timeout")).2.2 = 3
    ∧ (requestWithRetry 3 (fun _ => .failure "timeout")).2.1 = [2, 4] := by
  have h := request_retry_bounded 3 (fun _ => .failure "timeout")
    (fun _ => "timeout") (by decide) (fun i _ => rfl)
  exact ⟨h.1, h.2.1, h.2.2.1.trans (by decide)⟩

theorem hubRows_filterMap_A (m : RecordMap) :
    (hubRowsOf m).filterMap
      (fun p => if p.1 = RType.A then some p.2 else none) = m.a := by
  unfold hubRowsOf
  rw [List.filterMap_append]
  have h1 : ∀ l : RecordSet, (l.map (fun s => (RType.A, s))).filterMap
      (fun p => if p.1 = RType.A then some p.2 else none) = l := by
    intro l
    induction l with
    | nil => simp
    | cons x xs ih => simp [ih]
  have h2 : ∀ l : RecordSet, (l.map (fun s => (RType.CNAME, s))).filterMap
      (fun p => if p.1 = RType.A then some p.2 else none) = [] := by
    intro l
    induction l with
    | nil => simp
    | cons x xs ih => simp [ih]
  rw [h1, h2, List.append_nil]

theorem hubRows_filterMap_C (m : RecordMap) :
    (hubRowsOf m).filterMap
      (fun p => if p.1 = RType.CNAME then some p.2 else none) = m.cname := by
  unfold hubRowsOf
  rw [List.filterMap_append]
  have h1 : ∀ l : RecordSet, (l.map (fun s => (RType.A, s))).filterMap
      (fun p => if p.1 = RType.CNAME then some p.2 else none) = [] := by
    intro l
    induction l with
    | nil => simp
    | cons x xs ih => simp [ih]
  have h2 : ∀ l : RecordSet, (l.map (fun s => (RType.CNAME, s))).filterMap
      (fun p => if p.1 = RType.CNAME then some p.2 else none) = l := by
    intro l
    induction l with
    | nil => simp
    | cons x xs ih => simp [ih]
  rw [h1, h2, List.nil_append]

/-- C10: `save_hub_records` followed by `get_cached_hub_records` returns
the saved map restricted to its non-empty type sets; when every type set
is empty no row is written, the read returns `None`, and a subsequent
`sync_all_enabled_spokes` treats the hub cache as unavailable (error
rows, no adapter calls). -/
theorem hub_cache_roundtrip_nonempty
    (m : RecordMap) (spokes : List (SpokeCfg × SpokeBehavior))
    (hdb : ∀ p ∈ spokes, p.2.recordSyncErrorExn = none) :
    (¬(m.a = [] ∧ m.cname = []) →
      getCachedHubRecords (hubRowsOf m)
        = some ⟨if m.a = [] then none else some m.a,
                if m.cname = [] then none else some m.cname⟩)
    ∧ (m.a = [] → m.cname = [] →
        getCachedHubRecords (hubRowsOf m) = none
        ∧ (syncAllEnabledSpokes ((getCachedHubRecords (hubRowsOf m)).map PyRecordsDict.toMap) spokes).mutations
            = []
        ∧ ∀ p ∈ spokes, p.1.enabled = true →
            (p.1.name, emptyStats)
              ∈ (syncAllEnabledSpokes ((getCachedHubRecords (hubRowsOf m)).map PyRecordsDict.toMap) spokes).results
            ∧ mkRow p.1.name p.1.stype emptyStats (some cacheUnavailableMsg)
              ∈ (syncAllEnabledSpokes ((getCachedHubRecords (hubRowsOf m)).map PyRecordsDict.toMap) spokes).history) := by
  constructor
  · intro hne
    have hrows : ¬(hubRowsOf m = []) := by
      simp only [hubRowsOf, List.append_eq_nil, List.map_eq_nil_iff]
      tauto
    simp only [getCachedHubRecords, hubRows_filterMap_A, hubRows_filterMap_C,
      List.isEmpty_iff]
    rw [if_neg hrows]
  · intro ha hc
    have hnone : getCachedHubRecords (hubRowsOf m) = none := by
      simp [getCachedHubRecords, hubRowsOf, ha, hc]
    rw [hnone]
    exact ⟨rfl, (syncAll_none_inert spokes).1, (syncAll_none_rows spokes hdb).2⟩

/-- Witness for C10: a one-A-record map round-trips to its non-empty
part; the all-empty map reads back as `None` and the spoke is marked
error. -/
theorem hub_cache_roundtrip_nonempty_witness :
    getCachedHubRecords (hubRowsOf ⟨["1.2.3.4 nas.home"], []⟩)
      = some ⟨some ["1.2.3.4 nas.home"], none⟩
    ∧ getCachedHubRecords (hubRowsOf ⟨[], []⟩) = none
    ∧ ("spokeA", emptyStats)
        ∈ (syncAllEnabledSpokes
            ((getCachedHubRecords (hubRowsOf ⟨[], []⟩)).map PyRecordsDict.toMap)
          [(⟨"spokeA", "adguard", true⟩,
            ⟨.complete ⟨0, 0, 0, 0, 0⟩ [], none, none, none⟩)]).results := by
  have h1 := (hub_cache_roundtrip_nonempty ⟨["1.2.3.4 nas.home"], []⟩ [] (by decide)).1
    (by decide)
  have h2 := (hub_cache_roundtrip_nonempty ⟨[], []⟩
    [(⟨"spokeA", "adguard", true⟩, ⟨.complete ⟨0, 0, 0, 0, 0⟩ [], none, none, none⟩)]
    (by decide)).2 rfl rfl
  exact ⟨by simpa using h1, h2.1,
    (h2.2.2 (⟨"spokeA", "adguard", true⟩,
      ⟨.complete ⟨0, 0, 0, 0, 0⟩ [], none, none, none⟩) (by decide) rfl).1⟩

/-- Counterexample for C4: a `delete_record` call that returns `False`
is not counted as a conflict by `_apply_diff` (the claim demands
`conflicts = 1` here; the code yields 0 and `removed = 0`). -/
theorem delete_false_not_counted_counterexample :
    (applyDiff ⟨[], []⟩ ⟨["9.9.9.9 stale.home"], []⟩
      (fun _ _ => .ok true) (fun _ _ => .ok false)).conflicts = 0
    ∧ ¬((applyDiff ⟨[], []⟩ ⟨["9.9.9.9 stale.home"], []⟩
      (fun _ _ => .ok true) (fun _ _ => .ok false)).conflicts = 1)
    ∧ (applyDiff ⟨[], []⟩ ⟨["9.9.9.9 stale.home"], []⟩
      (fun _ _ => .ok true) (fun _ _ => .ok false)).removed = 0 := by
  decide

/-- C4 as amended: in `_apply_diff`, `added`/`removed` count exactly the
`True`-returning add/delete calls, and `conflicts` counts add calls that
returned `False` or raised plus delete calls that raised — a delete call
returning `False` is only logged; in `sync_records`, `conflicts` counts
only raised calls (a `False` return from add or delete is not counted at
all). Per-record outcomes never abort the rest of the batch: one `False`
add among two queued adds still yields `added = 1, conflicts = 1` in
`_apply_diff` (final conjuncts). -/
theorem apply_diff_stats_tally (source target : RecordMap)
    (add del : RType → String → CallResult) :
    (applyDiff source target add del).added
      = cntOk (add .A) (setDiff (source.get .A) (target.get .A))
        + cntOk (add .CNAME) (setDiff (source.get .CNAME) (target.get .CNAME))
    ∧ (applyDiff source target add del).removed
      = cntOk (del .A) (setDiff (target.get .A) (source.get .A))
        + cntOk (del .CNAME) (setDiff (target.get .CNAME) (source.get .CNAME))
    ∧ (applyDiff source target add del).conflicts
      = cntNotOk (add .A) (setDiff (source.get .A) (target.get .A))
        + cntExn (del .A) (setDiff (target.get .A) (source.get .A))
        + cntNotOk (add .CNAME) (setDiff (source.get .CNAME) (target.get .CNAME))
        + cntExn (del .CNAME) (setDiff (target.get .CNAME) (source.get .CNAME))
    ∧ (syncRecords source target add del false).1.conflicts
      = cntExn (add .A) (setDiff (source.get .A) (target.get .A))
        + cntExn (del .A) (setDiff (target.get .A) (source.get .A))
        + cntExn (add .CNAME) (setDiff (source.get .CNAME) (target.get .CNAME))
        + cntExn (del .CNAME) (setDiff (target.get .CNAME) (source.get .CNAME))
    ∧ (syncRecords source target add del false).1.added
      = cntOk (add .A) (setDiff (source.get .A) (target.get .A))
        + cntOk (add .CNAME) (setDiff (source.get .CNAME) (target.get .CNAME))
    ∧ (syncRecords source target add del false).1.removed
      = cntOk (del .A) (setDiff (target.get .A) (source.get .A))
        + cntOk (del .CNAME) (setDiff (target.get .CNAME) (source.get .CNAME))
    ∧ (applyDiff ⟨["1.1.1.1 a.home", "2.2.2.2 b.home"], []⟩ ⟨[], []⟩
        (fun _ r => if r = "1.1.1.1 a.home" then .ok true else .ok false)
        (fun _ _ => .ok true)).added = 1
    ∧ (applyDiff ⟨["1.1.1.1 a.home", "2.2.2.2 b.home"], []⟩ ⟨[], []⟩
        (fun _ r => if r = "1.1.1.1 a.home" then .ok true else .ok false)
        (fun _ _ => .ok true)).conflicts = 1 := by
  refine ⟨?_, ?_, ?_, ?_, ?_, ?_, by decide, by decide⟩ <;>
    first
      | (rw [applyDiff_eq])
      | (rw [syncRecords_eq])

end DnsSync
